import Mathlib

/-!
Verification of the Linux keyboard layer of plover
(src/plover/oslayer/linux/keyboardcontrol.py and
src/plover/oslayer/linux/keyboardcontrol_libevdev.py).

The Python objects are shallowly embedded:

* a libevdev InputEvent carries an event code (whose type is EV_KEY or
  EV_SYN) and an integer value; we model it as a structure with an
  event-type tag, a numeric code (the Linux input-event-codes value)
  and a numeric value (1 = press, 0 = release, 0 for SYN_REPORT);
* the dict LATIN_CHAR_TO_INPUT_EVENTS_DICT is modelled as an
  association list with the entries in source order, indexed with
  List.lookup;
* the Python string formatting expression ('%x' % ord(char)) is
  modelled by hexString, a structurally recursive function producing
  the minimal-length lowercase hexadecimal digits of a Nat;
* the mutual recursion between _char_to_input_events and
  _char_to_unicode_sequence is modelled with an explicit fuel
  parameter; fuel 2 is enough because every hexadecimal digit is in
  the direct table, and char_to_input_events_fuel_stable proves that
  the value is stable for any larger fuel;
* constructors that may raise are modelled as Except values, and the
  try/except fallback logic of the facades in keyboardcontrol.py is
  modelled by backend_fallback_init, which also records the ordered
  list of construction attempts and the logged warnings.
-/

/-- Event type of a libevdev event code: EV_KEY for key edges, EV_SYN for
synchronization markers. -/
inductive EvType where
  | syn : EvType
  | key : EvType
deriving DecidableEq

/-- A libevdev InputEvent: an event code (type tag plus numeric code from
linux input-event-codes.h) and a value (1 = press, 0 = release). -/
structure InputEvent where
  etype : EvType
  code : Nat
  value : Nat
deriving DecidableEq

/- Linux input-event-codes.h values for the key codes used by the source. -/

def KEY_1 : Nat := 2
def KEY_2 : Nat := 3
def KEY_3 : Nat := 4
def KEY_4 : Nat := 5
def KEY_5 : Nat := 6
def KEY_6 : Nat := 7
def KEY_7 : Nat := 8
def KEY_8 : Nat := 9
def KEY_9 : Nat := 10
def KEY_0 : Nat := 11
def KEY_MINUS : Nat := 12
def KEY_EQUAL : Nat := 13
def KEY_BACKSPACE : Nat := 14
def KEY_TAB : Nat := 15
def KEY_Q : Nat := 16
def KEY_W : Nat := 17
def KEY_E : Nat := 18
def KEY_R : Nat := 19
def KEY_T : Nat := 20
def KEY_Y : Nat := 21
def KEY_U : Nat := 22
def KEY_I : Nat := 23
def KEY_O : Nat := 24
def KEY_P : Nat := 25
def KEY_LEFTBRACE : Nat := 26
def KEY_RIGHTBRACE : Nat := 27
def KEY_ENTER : Nat := 28
def KEY_LEFTCTRL : Nat := 29
def KEY_A : Nat := 30
def KEY_S : Nat := 31
def KEY_D : Nat := 32
def KEY_F : Nat := 33
def KEY_G : Nat := 34
def KEY_H : Nat := 35
def KEY_J : Nat := 36
def KEY_K : Nat := 37
def KEY_L : Nat := 38
def KEY_SEMICOLON : Nat := 39
def KEY_APOSTROPHE : Nat := 40
def KEY_GRAVE : Nat := 41
def KEY_LEFTSHIFT : Nat := 42
def KEY_BACKSLASH : Nat := 43
def KEY_Z : Nat := 44
def KEY_X : Nat := 45
def KEY_C : Nat := 46
def KEY_V : Nat := 47
def KEY_B : Nat := 48
def KEY_N : Nat := 49
def KEY_M : Nat := 50
def KEY_COMMA : Nat := 51
def KEY_DOT : Nat := 52
def KEY_SLASH : Nat := 53
def KEY_SPACE : Nat := 57

/-- SYN_REPORT = InputEvent(EV_SYN.SYN_REPORT, 0). -/
def SYN_REPORT : InputEvent := ⟨EvType.syn, 0, 0⟩

/-- LEFT_SHIFT_PRESS = InputEvent(EV_KEY.KEY_LEFTSHIFT, 1). -/
def LEFT_SHIFT_PRESS : InputEvent := ⟨EvType.key, KEY_LEFTSHIFT, 1⟩

/-- LEFT_SHIFT_RELEASE = InputEvent(EV_KEY.KEY_LEFTSHIFT, 0). -/
def LEFT_SHIFT_RELEASE : InputEvent := ⟨EvType.key, KEY_LEFTSHIFT, 0⟩

/-- BACKSPACE_PRESS = InputEvent(EV_KEY.KEY_BACKSPACE, 1). -/
def BACKSPACE_PRESS : InputEvent := ⟨EvType.key, KEY_BACKSPACE, 1⟩

/-- BACKSPACE_RELEASE = InputEvent(EV_KEY.KEY_BACKSPACE, 0). -/
def BACKSPACE_RELEASE : InputEvent := ⟨EvType.key, KEY_BACKSPACE, 0⟩

/-- UNICODE_INPUT_INIT_EVENT_SEQUENCE from keyboardcontrol_libevdev.py:
press control, press shift, flush, press u, flush, release u, flush. -/
def UNICODE_INPUT_INIT_EVENT_SEQUENCE : List InputEvent :=
  [⟨EvType.key, KEY_LEFTCTRL, 1⟩,
   LEFT_SHIFT_PRESS,
   SYN_REPORT,
   ⟨EvType.key, KEY_U, 1⟩,
   SYN_REPORT,
   ⟨EvType.key, KEY_U, 0⟩,
   SYN_REPORT]

/-- UNICODE_INPUT_END_EVENT_SEQUENCE from keyboardcontrol_libevdev.py:
release shift, release control, flush. -/
def UNICODE_INPUT_END_EVENT_SEQUENCE : List InputEvent :=
  [LEFT_SHIFT_RELEASE,
   ⟨EvType.key, KEY_LEFTCTRL, 0⟩,
   SYN_REPORT]

/-- The helper _press_and_release(code) from keyboardcontrol_libevdev.py. -/
def press_and_release (code : Nat) : List InputEvent :=
  [⟨EvType.key, code, 1⟩, SYN_REPORT, ⟨EvType.key, code, 0⟩, SYN_REPORT]

/-- The helper _shift_press_and_release(code) from
keyboardcontrol_libevdev.py. -/
def shift_press_and_release (code : Nat) : List InputEvent :=
  [LEFT_SHIFT_PRESS, ⟨EvType.key, code, 1⟩, SYN_REPORT,
   ⟨EvType.key, code, 0⟩, LEFT_SHIFT_RELEASE, SYN_REPORT]

/-- LATIN_CHAR_TO_INPUT_EVENTS_DICT from keyboardcontrol_libevdev.py,
modelled as an association list with the dict entries in source order. -/
def LATIN_CHAR_TO_INPUT_EVENTS_DICT : List (Char × List InputEvent) :=
  [('\n', press_and_release KEY_ENTER),
   ('\t', press_and_release KEY_TAB),
   (' ',  press_and_release KEY_SPACE),
   ('!',  shift_press_and_release KEY_1),
   ('"',  shift_press_and_release KEY_APOSTROPHE),
   ('#',  shift_press_and_release KEY_3),
   ('$',  shift_press_and_release KEY_4),
   ('%',  shift_press_and_release KEY_5),
   ('&',  shift_press_and_release KEY_7),
   ('\'', press_and_release KEY_APOSTROPHE),
   ('(',  shift_press_and_release KEY_9),
   (')',  shift_press_and_release KEY_0),
   ('*',  shift_press_and_release KEY_8),
   ('+',  shift_press_and_release KEY_0),
   (',',  shift_press_and_release KEY_EQUAL),
   ('-',  press_and_release KEY_MINUS),
   ('.',  press_and_release KEY_DOT),
   ('/',  press_and_release KEY_SLASH),
   ('0',  press_and_release KEY_0),
   ('1',  press_and_release KEY_1),
   ('2',  press_and_release KEY_2),
   ('3',  press_and_release KEY_3),
   ('4',  press_and_release KEY_4),
   ('5',  press_and_release KEY_5),
   ('6',  press_and_release KEY_6),
   ('7',  press_and_release KEY_7),
   ('8',  press_and_release KEY_8),
   ('9',  press_and_release KEY_9),
   (':',  shift_press_and_release KEY_SEMICOLON),
   (';',  press_and_release KEY_SEMICOLON),
   ('<',  shift_press_and_release KEY_COMMA),
   ('=',  press_and_release KEY_EQUAL),
   ('>',  shift_press_and_release KEY_DOT),
   ('?',  shift_press_and_release KEY_SLASH),
   ('@',  shift_press_and_release KEY_2),
   ('A',  shift_press_and_release KEY_A),
   ('B',  shift_press_and_release KEY_B),
   ('C',  shift_press_and_release KEY_C),
   ('D',  shift_press_and_release KEY_D),
   ('E',  shift_press_and_release KEY_E),
   ('F',  shift_press_and_release KEY_F),
   ('G',  shift_press_and_release KEY_G),
   ('H',  shift_press_and_release KEY_H),
   ('I',  shift_press_and_release KEY_I),
   ('J',  shift_press_and_release KEY_J),
   ('K',  shift_press_and_release KEY_K),
   ('L',  shift_press_and_release KEY_L),
   ('M',  shift_press_and_release KEY_M),
   ('N',  shift_press_and_release KEY_N),
   ('O',  shift_press_and_release KEY_O),
   ('P',  shift_press_and_release KEY_P),
   ('Q',  shift_press_and_release KEY_Q),
   ('R',  shift_press_and_release KEY_R),
   ('S',  shift_press_and_release KEY_S),
   ('T',  shift_press_and_release KEY_T),
   ('U',  shift_press_and_release KEY_U),
   ('V',  shift_press_and_release KEY_V),
   ('W',  shift_press_and_release KEY_W),
   ('X',  shift_press_and_release KEY_X),
   ('Y',  shift_press_and_release KEY_Y),
   ('Z',  shift_press_and_release KEY_Z),
   ('[',  press_and_release KEY_LEFTBRACE),
   ('\\', press_and_release KEY_BACKSLASH),
   (']',  press_and_release KEY_RIGHTBRACE),
   ('^',  shift_press_and_release KEY_6),
   ('_',  shift_press_and_release KEY_MINUS),
   ('`',  press_and_release KEY_GRAVE),
   ('a',  press_and_release KEY_A),
   ('b',  press_and_release KEY_B),
   ('c',  press_and_release KEY_C),
   ('d',  press_and_release KEY_D),
   ('e',  press_and_release KEY_E),
   ('f',  press_and_release KEY_F),
   ('g',  press_and_release KEY_G),
   ('h',  press_and_release KEY_H),
   ('i',  press_and_release KEY_I),
   ('j',  press_and_release KEY_J),
   ('k',  press_and_release KEY_K),
   ('l',  press_and_release KEY_L),
   ('m',  press_and_release KEY_M),
   ('n',  press_and_release KEY_N),
   ('o',  press_and_release KEY_O),
   ('p',  press_and_release KEY_P),
   ('q',  press_and_release KEY_Q),
   ('r',  press_and_release KEY_R),
   ('s',  press_and_release KEY_S),
   ('t',  press_and_release KEY_T),
   ('u',  press_and_release KEY_U),
   ('v',  press_and_release KEY_V),
   ('w',  press_and_release KEY_W),
   ('x',  press_and_release KEY_X),
   ('y',  press_and_release KEY_Y),
   ('z',  press_and_release KEY_Z),
   ('{',  shift_press_and_release KEY_LEFTBRACE),
   ('|',  shift_press_and_release KEY_BACKSLASH),
   ('}',  shift_press_and_release KEY_RIGHTBRACE),
   ('~',  shift_press_and_release KEY_GRAVE)]

/-- The decimal digit characters. -/
def decimalChars : List Char :=
  ['0', '1', '2', '3', '4'] ++ ['5', '6', '7', '8', '9']

/-- The six letter digits of the lowercase hexadecimal alphabet. -/
def hexLetterChars : List Char :=
  ['a', 'b', 'c', 'd', 'e', 'f']

/-- The sixteen lowercase hexadecimal digit characters. -/
def hexChars : List Char :=
  decimalChars ++ hexLetterChars

/-- The character for one hexadecimal digit (0 to 15). -/
def hexDigitChar (m : Nat) : Char :=
  hexChars.getD m '0'

/-- Worker for hexString: peels hexadecimal digits of n from the least
significant end onto acc, stopping when the quotient reaches zero.  The
fuel argument only serves structural termination; hexString supplies
n + 1, which is always enough. -/
def hexStringCore : Nat → Nat → List Char → List Char
  | 0, _, acc => acc
  | fuel + 1, n, acc =>
    let acc' := hexDigitChar (n % 16) :: acc
    if n / 16 = 0 then acc' else hexStringCore fuel (n / 16) acc'

/-- The Python expression ('%x' % n): the minimal-length lowercase
hexadecimal digit string of n (no leading zeros, no fixed width; 0
formats as the single digit 0). -/
def hexString (n : Nat) : List Char :=
  hexStringCore (n + 1) n []

/-- Numeric value of one lowercase hexadecimal digit character. -/
def hexCharVal : Char → Nat
  | '0' => 0
  | '1' => 1
  | '2' => 2
  | '3' => 3
  | '4' => 4
  | '5' => 5
  | '6' => 6
  | '7' => 7
  | '8' => 8
  | '9' => 9
  | 'a' => 10
  | 'b' => 11
  | 'c' => 12
  | 'd' => 13
  | 'e' => 14
  | 'f' => 15
  | _ => 0

/-- Numeric value of a big-endian hexadecimal digit string. -/
def hexVal (ds : List Char) : Nat :=
  ds.foldl (fun a d => 16 * a + hexCharVal d) 0

/-- The mutual recursion between _char_to_input_events and
_char_to_unicode_sequence in keyboardcontrol_libevdev.py, with an
explicit fuel argument for termination.  Every hexadecimal digit is in
the direct table, so the inner recursive calls never miss the table and
fuel 2 already computes the fixed point (char_to_input_events_fuel_stable). -/
def char_to_input_events_fuel : Nat → Char → List InputEvent
  | 0, _ => []
  | fuel + 1, c =>
    match LATIN_CHAR_TO_INPUT_EVENTS_DICT.lookup c with
    | some events => events
    | none =>
      UNICODE_INPUT_INIT_EVENT_SEQUENCE
        ++ ((hexString c.toNat).map (char_to_input_events_fuel fuel)).flatten
        ++ UNICODE_INPUT_END_EVENT_SEQUENCE

/-- _char_to_input_events(char): the direct table entry when present,
the Unicode fallback sequence otherwise. -/
def char_to_input_events (c : Char) : List InputEvent :=
  char_to_input_events_fuel 2 c

/-- _char_to_unicode_sequence(char): the init sequence, then the
encodings of the hexadecimal digits of the code point, then the end
sequence (chain.from_iterable over those parts). -/
def char_to_unicode_sequence (c : Char) : List InputEvent :=
  UNICODE_INPUT_INIT_EVENT_SEQUENCE
    ++ ((hexString c.toNat).map char_to_input_events).flatten
    ++ UNICODE_INPUT_END_EVENT_SEQUENCE

/-- The event sequence passed to the single _send_events call of
KeyboardEmulation.send_string: chain.from_iterable of
map(_char_to_input_events, string), the string given as its character
list. -/
def send_string_events (s : List Char) : List InputEvent :=
  (s.map char_to_input_events).flatten

/-- The list of _send_events calls performed by
KeyboardEmulation.send_backspaces(count): one flush of the four-event
group per loop iteration; range(count) of a negative count is empty. -/
def send_backspaces_sends (count : Int) : List (List InputEvent) :=
  List.replicate count.toNat
    [BACKSPACE_PRESS, SYN_REPORT, BACKSPACE_RELEASE, SYN_REPORT]

/-- Exceptions of the Python layer that the model distinguishes. -/
inductive PyErr where
  | notImplementedError : PyErr
deriving DecidableEq

/-- Outcome view of KeyboardEmulation.send_backspaces: the body contains
no raise statement and no validation, so for every count the call
returns normally with the sends of send_backspaces_sends (device-write
failures are outside the model). -/
def send_backspaces_result (count : Int) :
    Except PyErr (List (List InputEvent)) :=
  Except.ok (send_backspaces_sends count)

/-- Which of the two backends a facade bound as its delegate. -/
inductive BackendChoice where
  | preferred : BackendChoice
  | fallback : BackendChoice
deriving DecidableEq, BEq

/-- Observable outcome of running a facade constructor from
keyboardcontrol.py: the result (chosen backend and its state, or the
propagated exception), the ordered list of backend constructors that
were invoked, and the logged warnings (each identified by the exception
that caused it). -/
structure FacadeInit (E B : Type) where
  result : Except E (BackendChoice × B)
  attempts : List BackendChoice
  warnings : List E

/-- The try/except bodies of KeyboardCapture.__init__ and
KeyboardEmulation.__init__ in keyboardcontrol.py: construct the
preferred libevdev backend; if that raises, log one warning naming the
cause and construct the X11 fallback backend; if the fallback also
raises, the exception propagates.  Each constructor is given by its
outcome (Except value); the trace fields record each invocation. -/
def backend_fallback_init {E B : Type} (pref fall : Except E B) : FacadeInit E B :=
  match pref with
  | Except.ok b =>
    ⟨Except.ok (BackendChoice.preferred, b), [BackendChoice.preferred], []⟩
  | Except.error e =>
    match fall with
    | Except.ok b =>
      ⟨Except.ok (BackendChoice.fallback, b),
       [BackendChoice.preferred, BackendChoice.fallback], [e]⟩
    | Except.error e2 =>
      ⟨Except.error e2,
       [BackendChoice.preferred, BackendChoice.fallback], [e]⟩

/-- KeyboardCapture.__init__ from keyboardcontrol_libevdev.py: it assigns
an empty suppressed-keys set and then unconditionally raises
NotImplementedError, so for every backend-state type the constructor
outcome is that error. -/
def keyboard_capture_libevdev_init {B : Type} : Except PyErr B :=
  Except.error PyErr.notImplementedError

/-- KeyboardCapture.__init__ from keyboardcontrol.py: the facade
constructor, with the libevdev capture constructor as the preferred
backend and the X11 capture constructor (whose outcome is the
parameter) as the fallback. -/
def keyboard_capture_init {B : Type} (x11_kc : Except PyErr B) : FacadeInit PyErr B :=
  backend_fallback_init keyboard_capture_libevdev_init x11_kc

/-- Whether an event is a key edge with the given code. -/
def isKeyEdge (k : Nat) (e : InputEvent) : Bool :=
  match e.etype with
  | EvType.key => e.code == k
  | EvType.syn => false

/-- The values (1 = press, 0 = release) of the key edges of code k in a
sequence, in order. -/
def keyEdges (k : Nat) (es : List InputEvent) : List Nat :=
  (es.filter (isKeyEdge k)).map InputEvent.value

/-- The codes of all key edges in a sequence. -/
def codesOf (es : List InputEvent) : List Nat :=
  (es.filter fun e =>
    match e.etype with
    | EvType.key => true
    | EvType.syn => false).map InputEvent.code

/-- Whether a list of key-edge values is a concatenation of press-release
pairs: every press is followed by its matching release before the next
press of the same code, and presses and releases balance out. -/
def alternatesPR : List Nat → Bool
  | [] => true
  | [_] => false
  | v :: w :: rest => v == 1 && w == 0 && alternatesPR rest

/-- The code of the second event of a sequence (for a table entry built
by shift_press_and_release this is the base key pressed under shift). -/
def baseCode (es : List InputEvent) : Nat :=
  (es.getD 1 SYN_REPORT).code

/-! ## Supporting lemmas -/

theorem lookup_mem {β : Type} {l : List (Char × β)} {c : Char} {v : β}
    (h : l.lookup c = some v) : (c, v) ∈ l := by
  induction l with
  | nil => simp [List.lookup] at h
  | cons p l ih =>
    obtain ⟨k, w⟩ := p
    by_cases hk : k = c
    · subst hk
      simp [List.lookup] at h
      subst h
      exact List.mem_cons_self _ _
    · have hbeq : (c == k) = false := by
        simpa using fun he => hk he.symm
      simp [List.lookup, hbeq] at h
      exact List.mem_cons_of_mem _ (ih h)

theorem char_to_input_events_fuel_direct {c : Char} {s : List InputEvent}
    (h : LATIN_CHAR_TO_INPUT_EVENTS_DICT.lookup c = some s) :
    ∀ fuel, char_to_input_events_fuel (fuel + 1) c = s := by
  intro fuel
  simp [char_to_input_events_fuel, h]

theorem char_to_input_events_direct {c : Char} {s : List InputEvent}
    (h : LATIN_CHAR_TO_INPUT_EVENTS_DICT.lookup c = some s) :
    char_to_input_events c = s :=
  char_to_input_events_fuel_direct h 1

theorem hexDigitChar_mem_of_lt : ∀ m, m < 16 → hexDigitChar m ∈ hexChars := by decide

theorem hexDigitChar_ne_zero_of_lt : ∀ m, m < 16 → m ≠ 0 → hexDigitChar m ≠ '0' := by decide

theorem hexCharVal_hexDigitChar : ∀ m, m < 16 → hexCharVal (hexDigitChar m) = m := by decide

theorem hexStringCore_mem :
    ∀ fuel n acc, (∀ d ∈ acc, d ∈ hexChars) →
      ∀ d ∈ hexStringCore fuel n acc, d ∈ hexChars := by
  intro fuel
  induction fuel with
  | zero => intro n acc hacc d hd; exact hacc d hd
  | succ fuel ih =>
    intro n acc hacc d hd
    have hmod : hexDigitChar (n % 16) ∈ hexChars :=
      hexDigitChar_mem_of_lt _ (Nat.mod_lt _ (by decide))
    by_cases h : n / 16 = 0
    · simp [hexStringCore, h] at hd
      rcases hd with h1 | h1
      · subst h1; exact hmod
      · exact hacc _ h1
    · simp [hexStringCore, h] at hd
      refine ih (n / 16) _ ?_ d hd
      intro e he
      rw [List.mem_cons] at he
      rcases he with h1 | h1
      · subst h1; exact hmod
      · exact hacc _ h1

theorem hexString_mem (n : Nat) : ∀ d ∈ hexString n, d ∈ hexChars :=
  hexStringCore_mem (n + 1) n [] (by intro d hd; cases hd)

theorem hexStringCore_ne_nil :
    ∀ fuel n acc, fuel ≠ 0 ∨ acc ≠ [] → hexStringCore fuel n acc ≠ [] := by
  intro fuel
  induction fuel with
  | zero =>
    intro n acc h
    rcases h with h | h
    · exact absurd rfl h
    · exact h
  | succ fuel ih =>
    intro n acc h
    by_cases hq : n / 16 = 0
    · simp [hexStringCore, hq]
    · simp [hexStringCore, hq]
      exact ih (n / 16) _ (Or.inr (by simp))

theorem hexString_ne_nil (n : Nat) : hexString n ≠ [] :=
  hexStringCore_ne_nil (n + 1) n [] (Or.inl (by simp))

theorem hexStringCore_head_ne_zero :
    ∀ fuel n acc, n ≠ 0 → n < 16 ^ fuel →
      (hexStringCore fuel n acc).head? ≠ some '0' := by
  intro fuel
  induction fuel with
  | zero =>
    intro n acc hn hlt
    simp at hlt
    omega
  | succ fuel ih =>
    intro n acc hn hlt
    by_cases hq : n / 16 = 0
    · have h16 : n < 16 := by omega
      have : n % 16 = n := Nat.mod_eq_of_lt h16
      simp [hexStringCore, hq, this]
      exact hexDigitChar_ne_zero_of_lt n h16 hn
    · simp [hexStringCore, hq]
      refine ih (n / 16) _ hq ?_
      have : 16 ^ (fuel + 1) = 16 ^ fuel * 16 := by ring
      omega

theorem hexString_head_ne_zero (n : Nat) (hn : n ≠ 0) :
    (hexString n).head? ≠ some '0' := by
  refine hexStringCore_head_ne_zero (n + 1) n [] hn ?_
  calc n < 16 ^ n := Nat.lt_pow_self (by decide) n
    _ ≤ 16 ^ (n + 1) := Nat.pow_le_pow_right (by decide) (Nat.le_succ n)

theorem hexVal_core :
    ∀ fuel n acc, n < 16 ^ fuel →
      List.foldl (fun a d => 16 * a + hexCharVal d) 0 (hexStringCore fuel n acc) =
        List.foldl (fun a d => 16 * a + hexCharVal d) n acc := by
  intro fuel
  induction fuel with
  | zero =>
    intro n acc hlt
    simp at hlt
    subst hlt
    rfl
  | succ fuel ih =>
    intro n acc hlt
    have hmod : hexCharVal (hexDigitChar (n % 16)) = n % 16 :=
      hexCharVal_hexDigitChar _ (Nat.mod_lt _ (by decide))
    by_cases hq : n / 16 = 0
    · have h16 : n < 16 := by omega
      simp [hexStringCore, hq, Nat.mod_eq_of_lt h16,
        hexCharVal_hexDigitChar n h16]
    · simp only [hexStringCore, hq, if_false]
      rw [ih (n / 16) _ (by
        have : 16 ^ (fuel + 1) = 16 ^ fuel * 16 := by ring
        omega)]
      simp [hmod]
      congr 1
      omega

theorem hexVal_hexString (n : Nat) : hexVal (hexString n) = n := by
  have h := hexVal_core (n + 1) n [] (by
    calc n < 16 ^ n := Nat.lt_pow_self (by decide) n
      _ ≤ 16 ^ (n + 1) := Nat.pow_le_pow_right (by decide) (Nat.le_succ n))
  simpa [hexVal, hexString] using h

theorem digit_lookup_isSome :
    ∀ d ∈ hexChars, (LATIN_CHAR_TO_INPUT_EVENTS_DICT.lookup d).isSome := by decide

theorem char_to_input_events_digit {d : Char} (hd : d ∈ hexChars) :
    ∀ fuel, char_to_input_events_fuel (fuel + 1) d = char_to_input_events d := by
  intro fuel
  obtain ⟨s, hs⟩ := Option.isSome_iff_exists.mp (digit_lookup_isSome d hd)
  rw [char_to_input_events_fuel_direct hs, char_to_input_events_direct hs]

theorem char_to_input_events_fuel_succ {fuel : Nat} {c : Char}
    (h : LATIN_CHAR_TO_INPUT_EVENTS_DICT.lookup c = none) :
    char_to_input_events_fuel (fuel + 1) c =
      UNICODE_INPUT_INIT_EVENT_SEQUENCE
        ++ ((hexString c.toNat).map (char_to_input_events_fuel fuel)).flatten
        ++ UNICODE_INPUT_END_EVENT_SEQUENCE := by
  simp only [char_to_input_events_fuel, h]

theorem char_to_input_events_fallback {c : Char}
    (h : LATIN_CHAR_TO_INPUT_EVENTS_DICT.lookup c = none) :
    char_to_input_events c = char_to_unicode_sequence c := by
  show char_to_input_events_fuel (1 + 1) c = _
  rw [char_to_input_events_fuel_succ h, char_to_unicode_sequence]
  congr 2
  apply congrArg
  apply List.map_congr_left
  intro d hd
  exact char_to_input_events_digit (hexString_mem _ d hd) 0

theorem char_to_input_events_fuel_stable (fuel : Nat) (c : Char) :
    char_to_input_events_fuel (fuel + 2) c = char_to_input_events c := by
  cases h : LATIN_CHAR_TO_INPUT_EVENTS_DICT.lookup c with
  | some s =>
    rw [show fuel + 2 = (fuel + 1) + 1 from rfl,
      char_to_input_events_fuel_direct h, char_to_input_events_direct h]
  | none =>
    rw [char_to_input_events_fallback h]
    rw [show fuel + 2 = (fuel + 1) + 1 from rfl]
    rw [char_to_input_events_fuel_succ h, char_to_unicode_sequence]
    congr 2
    apply congrArg
    apply List.map_congr_left
    intro d hd
    exact char_to_input_events_digit (hexString_mem _ d hd) fuel

theorem codesOf_cons_key (cd v : Nat) (es : List InputEvent) :
    codesOf (⟨EvType.key, cd, v⟩ :: es) = cd :: codesOf es := by
  simp [codesOf, List.filter_cons]

theorem codesOf_cons_syn (cd v : Nat) (es : List InputEvent) :
    codesOf (⟨EvType.syn, cd, v⟩ :: es) = codesOf es := by
  simp [codesOf, List.filter_cons]

theorem keyEdges_cons_key_eq (k v : Nat) (es : List InputEvent) :
    keyEdges k (⟨EvType.key, k, v⟩ :: es) = v :: keyEdges k es := by
  simp [keyEdges, isKeyEdge, List.filter_cons]

theorem keyEdges_cons_key_ne {cd k : Nat} (h : cd ≠ k) (v : Nat) (es : List InputEvent) :
    keyEdges k (⟨EvType.key, cd, v⟩ :: es) = keyEdges k es := by
  simp [keyEdges, isKeyEdge, List.filter_cons, h]

theorem keyEdges_cons_syn (k cd v : Nat) (es : List InputEvent) :
    keyEdges k (⟨EvType.syn, cd, v⟩ :: es) = keyEdges k es := by
  simp [keyEdges, isKeyEdge, List.filter_cons]

theorem keyEdges_append (k : Nat) (a b : List InputEvent) :
    keyEdges k (a ++ b) = keyEdges k a ++ keyEdges k b := by
  simp [keyEdges, List.filter_append]

theorem keyEdges_flatten (k : Nat) (ls : List (List InputEvent)) :
    keyEdges k ls.flatten = (ls.map (keyEdges k)).flatten := by
  induction ls with
  | nil => rfl
  | cons a ls ih => simp [keyEdges_append, ih]

theorem keyEdges_eq_nil_of_not_mem {k : Nat} {es : List InputEvent}
    (h : k ∉ codesOf es) : keyEdges k es = [] := by
  induction es with
  | nil => rfl
  | cons e es ih =>
    obtain ⟨t, cd, v⟩ := e
    cases t with
    | syn =>
      rw [codesOf_cons_syn] at h
      rw [keyEdges_cons_syn]
      exact ih h
    | key =>
      rw [codesOf_cons_key] at h
      have hne : cd ≠ k := fun he => h (he ▸ List.mem_cons_self _ _)
      rw [keyEdges_cons_key_ne hne]
      exact ih fun hm => h (List.mem_cons_of_mem _ hm)

theorem alternates_append :
    ∀ (a b : List Nat), alternatesPR a = true → alternatesPR b = true →
      alternatesPR (a ++ b) = true
  | [], _, _, hb => hb
  | [_], _, ha, _ => by simp [alternatesPR] at ha
  | v :: w :: rest, b, ha, hb => by
    simp only [alternatesPR, Bool.and_eq_true, beq_iff_eq] at ha
    simp only [List.cons_append, alternatesPR, Bool.and_eq_true, beq_iff_eq]
    obtain ⟨⟨h1, h2⟩, h3⟩ := ha
    exact ⟨⟨h1, h2⟩, alternates_append rest b h3 hb⟩

theorem alternates_flatten :
    ∀ (ls : List (List Nat)), (∀ l ∈ ls, alternatesPR l = true) →
      alternatesPR ls.flatten = true := by
  intro ls
  induction ls with
  | nil => intro _; rfl
  | cons a ls ih =>
    intro h
    rw [List.flatten_cons]
    exact alternates_append _ _ (h a (List.mem_cons_self _ _))
      (ih fun l hl => h l (List.mem_cons_of_mem _ hl))

theorem flatten_eq_nil {α : Type} {ls : List (List α)} (h : ∀ l ∈ ls, l = []) :
    ls.flatten = [] := by
  induction ls with
  | nil => rfl
  | cons a ls ih =>
    rw [List.flatten_cons, h a (List.mem_cons_self _ _),
      ih fun l hl => h l (List.mem_cons_of_mem _ hl)]
    rfl

theorem table_entry_invariants :
    ∀ p ∈ LATIN_CHAR_TO_INPUT_EVENTS_DICT,
      p.2.getLast? = some SYN_REPORT ∧
      ∀ k ∈ codesOf p.2, alternatesPR (keyEdges k p.2) = true := by decide

theorem digit_events_invariants :
    ∀ d ∈ hexChars,
      keyEdges KEY_LEFTSHIFT (char_to_input_events d) = [] ∧
      keyEdges KEY_LEFTCTRL (char_to_input_events d) = [] ∧
      keyEdges KEY_U (char_to_input_events d) = [] ∧
      ∀ k ∈ codesOf (char_to_input_events d),
        alternatesPR (keyEdges k (char_to_input_events d)) = true := by decide

theorem keyEdges_init_shift :
    keyEdges KEY_LEFTSHIFT UNICODE_INPUT_INIT_EVENT_SEQUENCE = [1] := by decide

theorem keyEdges_init_ctrl :
    keyEdges KEY_LEFTCTRL UNICODE_INPUT_INIT_EVENT_SEQUENCE = [1] := by decide

theorem keyEdges_init_u :
    keyEdges KEY_U UNICODE_INPUT_INIT_EVENT_SEQUENCE = [1, 0] := by decide

theorem keyEdges_end_shift :
    keyEdges KEY_LEFTSHIFT UNICODE_INPUT_END_EVENT_SEQUENCE = [0] := by decide

theorem keyEdges_end_ctrl :
    keyEdges KEY_LEFTCTRL UNICODE_INPUT_END_EVENT_SEQUENCE = [0] := by decide

theorem keyEdges_end_u :
    keyEdges KEY_U UNICODE_INPUT_END_EVENT_SEQUENCE = [] := by decide

theorem keyEdges_init_other {k : Nat} (h42 : k ≠ KEY_LEFTSHIFT)
    (h29 : k ≠ KEY_LEFTCTRL) (h22 : k ≠ KEY_U) :
    keyEdges k UNICODE_INPUT_INIT_EVENT_SEQUENCE = [] := by
  show keyEdges k
    [⟨EvType.key, KEY_LEFTCTRL, 1⟩, ⟨EvType.key, KEY_LEFTSHIFT, 1⟩,
     ⟨EvType.syn, 0, 0⟩, ⟨EvType.key, KEY_U, 1⟩, ⟨EvType.syn, 0, 0⟩,
     ⟨EvType.key, KEY_U, 0⟩, ⟨EvType.syn, 0, 0⟩] = []
  rw [keyEdges_cons_key_ne (Ne.symm h29), keyEdges_cons_key_ne (Ne.symm h42),
    keyEdges_cons_syn, keyEdges_cons_key_ne (Ne.symm h22), keyEdges_cons_syn,
    keyEdges_cons_key_ne (Ne.symm h22), keyEdges_cons_syn]
  rfl

theorem keyEdges_end_other {k : Nat} (h42 : k ≠ KEY_LEFTSHIFT)
    (h29 : k ≠ KEY_LEFTCTRL) :
    keyEdges k UNICODE_INPUT_END_EVENT_SEQUENCE = [] := by
  show keyEdges k
    [⟨EvType.key, KEY_LEFTSHIFT, 0⟩, ⟨EvType.key, KEY_LEFTCTRL, 0⟩,
     ⟨EvType.syn, 0, 0⟩] = []
  rw [keyEdges_cons_key_ne (Ne.symm h42), keyEdges_cons_key_ne (Ne.symm h29),
    keyEdges_cons_syn]
  rfl

theorem getLast_append_end (a : List InputEvent) :
    (a ++ UNICODE_INPUT_END_EVENT_SEQUENCE).getLast? = some SYN_REPORT := by
  have h : a ++ UNICODE_INPUT_END_EVENT_SEQUENCE =
      (a ++ [LEFT_SHIFT_RELEASE, ⟨EvType.key, KEY_LEFTCTRL, 0⟩]) ++ [SYN_REPORT] := by
    simp [UNICODE_INPUT_END_EVENT_SEQUENCE]
  rw [h, List.getLast?_concat]


/-! ## The claims -/

/-- Every table entry that contains a left-shift press is exactly the
six-event shape produced by shift_press_and_release of its base key. -/
theorem table_shift_entries :
    ∀ p ∈ LATIN_CHAR_TO_INPUT_EVENTS_DICT, LEFT_SHIFT_PRESS ∈ p.2 →
      p.2 = [LEFT_SHIFT_PRESS, ⟨EvType.key, baseCode p.2, 1⟩, SYN_REPORT,
             ⟨EvType.key, baseCode p.2, 0⟩, LEFT_SHIFT_RELEASE, SYN_REPORT] := by decide

/-- Counting helper for the facade trace: a single preferred attempt. -/
theorem count_preferred_one :
    List.count BackendChoice.preferred [BackendChoice.preferred] = 1 := rfl

/-- Counting helper for the facade trace: preferred then fallback. -/
theorem count_preferred_two :
    List.count BackendChoice.preferred
      [BackendChoice.preferred, BackendChoice.fallback] = 1 := rfl

/-- C1: For each facade, construction attempts the preferred libevdev
backend exactly once; when the preferred constructor succeeds, it is
bound and the fallback is never attempted; when it raises, exactly one
warning identifying the cause is logged and the X11 fallback backend is
constructed exactly once, with the preferred backend never retried; and
when the fallback construction also raises, that exception propagates
out of the facade constructor. -/
theorem C1_backend_fallback {E B : Type} (pref fall : Except E B) :
    ((backend_fallback_init pref fall).attempts.count BackendChoice.preferred = 1)
    ∧ (∀ b, pref = Except.ok b →
        (backend_fallback_init pref fall).attempts = [BackendChoice.preferred]
        ∧ (backend_fallback_init pref fall).result
            = Except.ok (BackendChoice.preferred, b)
        ∧ (backend_fallback_init pref fall).warnings = [])
    ∧ (∀ e, pref = Except.error e →
        (backend_fallback_init pref fall).warnings = [e]
        ∧ (backend_fallback_init pref fall).attempts
            = [BackendChoice.preferred, BackendChoice.fallback]
        ∧ (∀ b, fall = Except.ok b →
            (backend_fallback_init pref fall).result
              = Except.ok (BackendChoice.fallback, b))
        ∧ (∀ e2, fall = Except.error e2 →
            (backend_fallback_init pref fall).result = Except.error e2)) := by
  cases pref with
  | ok b =>
    cases fall <;> refine ⟨count_preferred_one, ?_, ?_⟩ <;>
      simp [backend_fallback_init]
  | error e =>
    cases fall <;> refine ⟨count_preferred_two, ?_, ?_⟩ <;>
      simp [backend_fallback_init]

/-- Witness for C1 at a concrete run: the preferred constructor raises
NotImplementedError and the fallback constructor succeeds with state 7. -/
theorem C1_backend_fallback_witness :
    (backend_fallback_init (Except.error PyErr.notImplementedError)
        (Except.ok (7 : Nat))).warnings = [PyErr.notImplementedError]
    ∧ (backend_fallback_init (Except.error PyErr.notImplementedError)
        (Except.ok (7 : Nat))).attempts
        = [BackendChoice.preferred, BackendChoice.fallback]
    ∧ (backend_fallback_init (Except.error PyErr.notImplementedError)
        (Except.ok (7 : Nat))).result = Except.ok (BackendChoice.fallback, 7) := by
  have h := (C1_backend_fallback (Except.error PyErr.notImplementedError)
    (Except.ok (7 : Nat))).2.2 PyErr.notImplementedError rfl
  exact ⟨h.1, h.2.1, h.2.2.1 7 rfl⟩

/-- C2: encode of the single character A is exactly shift-press, A-press,
marker, A-release, shift-release, marker; and every entry of the direct
table that holds a shift press is of that six-event shape for some base
key code. -/
theorem C2_shifted_char_encoding :
    char_to_input_events 'A' =
      [LEFT_SHIFT_PRESS, ⟨EvType.key, KEY_A, 1⟩, SYN_REPORT,
       ⟨EvType.key, KEY_A, 0⟩, LEFT_SHIFT_RELEASE, SYN_REPORT]
    ∧ ∀ (c : Char) (s : List InputEvent),
        LATIN_CHAR_TO_INPUT_EVENTS_DICT.lookup c = some s →
        LEFT_SHIFT_PRESS ∈ s →
        ∃ code : Nat, s =
          [LEFT_SHIFT_PRESS, ⟨EvType.key, code, 1⟩, SYN_REPORT,
           ⟨EvType.key, code, 0⟩, LEFT_SHIFT_RELEASE, SYN_REPORT] := by
  constructor
  · decide
  · intro c s h hmem
    exact ⟨baseCode s, table_shift_entries (c, s) (lookup_mem h) hmem⟩

/-- Witness for C2 at the table entry of the character A. -/
theorem C2_shifted_char_encoding_witness :
    ∃ code : Nat, shift_press_and_release KEY_A =
      [LEFT_SHIFT_PRESS, ⟨EvType.key, code, 1⟩, SYN_REPORT,
       ⟨EvType.key, code, 0⟩, LEFT_SHIFT_RELEASE, SYN_REPORT] :=
  C2_shifted_char_encoding.2 'A' (shift_press_and_release KEY_A) (by decide) (by decide)

/-- C3: for every character outside the direct table, encode is defined
and equals the init sequence, then the concatenated direct-path
encodings of the minimal-length lowercase hexadecimal digits of the
code point (nonempty, no leading zero, digits drawn from the lowercase
hexadecimal alphabet, and evaluating back to the code point), then the
end sequence; every digit hits the direct table, so the fallback never
nests. -/
theorem C3_unicode_fallback_encoding (c : Char)
    (h : LATIN_CHAR_TO_INPUT_EVENTS_DICT.lookup c = none) :
    char_to_input_events c =
      UNICODE_INPUT_INIT_EVENT_SEQUENCE
        ++ ((hexString c.toNat).map char_to_input_events).flatten
        ++ UNICODE_INPUT_END_EVENT_SEQUENCE
    ∧ (∀ d ∈ hexString c.toNat, ∃ s,
        LATIN_CHAR_TO_INPUT_EVENTS_DICT.lookup d = some s
        ∧ char_to_input_events d = s)
    ∧ hexString c.toNat ≠ []
    ∧ (c.toNat ≠ 0 → (hexString c.toNat).head? ≠ some '0')
    ∧ (∀ d ∈ hexString c.toNat, d ∈ hexChars)
    ∧ hexVal (hexString c.toNat) = c.toNat := by
  refine ⟨by rw [char_to_input_events_fallback h]; rfl, ?_, hexString_ne_nil _,
    fun hn => hexString_head_ne_zero _ hn, hexString_mem _, hexVal_hexString _⟩
  intro d hd
  obtain ⟨s, hs⟩ := Option.isSome_iff_exists.mp
    (digit_lookup_isSome d (hexString_mem _ d hd))
  exact ⟨s, hs, char_to_input_events_direct hs⟩

/-- Witness for C3 at the euro sign, which is not in the direct table. -/
theorem C3_unicode_fallback_encoding_witness :
    LATIN_CHAR_TO_INPUT_EVENTS_DICT.lookup '€' = none
    ∧ char_to_input_events '€' =
        UNICODE_INPUT_INIT_EVENT_SEQUENCE
          ++ ((hexString '€'.toNat).map char_to_input_events).flatten
          ++ UNICODE_INPUT_END_EVENT_SEQUENCE
    ∧ hexVal (hexString '€'.toNat) = '€'.toNat :=
  ⟨by decide, (C3_unicode_fallback_encoding '€' (by decide)).1,
   (C3_unicode_fallback_encoding '€' (by decide)).2.2.2.2.2⟩

/-- C4 counterexample: the claimed total length (3-event init sequence
plus the four digit encodings plus the 3-event end sequence) does not
match encode of the euro sign, whose init sequence has 7 events, not 3
(26 events in total rather than 22). -/
theorem C4_counterexample :
    (char_to_input_events '€').length ≠
      3 + (char_to_input_events '2').length + (char_to_input_events '0').length
        + (char_to_input_events 'a').length + (char_to_input_events 'c').length
        + 3 := by decide

/-- C4 (amended): encode of the euro sign (code point 0x20AC) is the
7-event init sequence, then encode of the digits 2, 0, a, c in order,
then the 3-event end sequence, with total length the sum of the lengths
of those parts and no interleaving across part boundaries. -/
theorem C4_euro_encoding :
    char_to_input_events '€' =
      UNICODE_INPUT_INIT_EVENT_SEQUENCE ++ char_to_input_events '2'
        ++ char_to_input_events '0' ++ char_to_input_events 'a'
        ++ char_to_input_events 'c' ++ UNICODE_INPUT_END_EVENT_SEQUENCE
    ∧ UNICODE_INPUT_INIT_EVENT_SEQUENCE.length = 7
    ∧ UNICODE_INPUT_END_EVENT_SEQUENCE.length = 3
    ∧ (char_to_input_events '€').length =
        UNICODE_INPUT_INIT_EVENT_SEQUENCE.length
          + (char_to_input_events '2').length + (char_to_input_events '0').length
          + (char_to_input_events 'a').length + (char_to_input_events 'c').length
          + UNICODE_INPUT_END_EVENT_SEQUENCE.length := by decide

/-- C5: the event sequence sent by send_string is the ordered
concatenation of the per-character encodings: it maps concatenation of
strings to concatenation of sequences, a one-character string to that
character's encoding, and the empty string to the empty sequence (no
events, no marker). -/
theorem C5_send_string_concatenation (s t : List Char) :
    send_string_events (s ++ t) = send_string_events s ++ send_string_events t
    ∧ (∀ c : Char, send_string_events [c] = char_to_input_events c)
    ∧ send_string_events [] = [] := by
  refine ⟨?_, ?_, rfl⟩
  · simp [send_string_events]
  · intro c
    simp [send_string_events]

/-- C6: for every Unicode character, the encoding ends with a marker
event, and for every key code the press and release values of that code
alternate in matched press-release pairs, so presses and releases
balance and no press of a code recurs before its release. -/
theorem C6_encode_invariants (c : Char) :
    (char_to_input_events c).getLast? = some SYN_REPORT
    ∧ ∀ k : Nat, alternatesPR (keyEdges k (char_to_input_events c)) = true := by
  cases h : LATIN_CHAR_TO_INPUT_EVENTS_DICT.lookup c with
  | some s =>
    rw [char_to_input_events_direct h]
    have hm := lookup_mem h
    refine ⟨(table_entry_invariants _ hm).1, ?_⟩
    intro k
    by_cases hk : k ∈ codesOf s
    · exact (table_entry_invariants _ hm).2 k hk
    · rw [keyEdges_eq_nil_of_not_mem hk]; rfl
  | none =>
    rw [char_to_input_events_fallback h, char_to_unicode_sequence]
    have hds := hexString_mem c.toNat
    constructor
    · exact getLast_append_end _
    · intro k
      rw [keyEdges_append, keyEdges_append, keyEdges_flatten, List.map_map]
      have hmid_nil : (∀ d ∈ hexChars, keyEdges k (char_to_input_events d) = []) →
          ((hexString c.toNat).map (keyEdges k ∘ char_to_input_events)).flatten
            = [] := by
        intro hz
        refine flatten_eq_nil ?_
        intro l hl
        obtain ⟨d, hd, rfl⟩ := List.mem_map.mp hl
        show keyEdges k (char_to_input_events d) = []
        exact hz d (hds d hd)
      by_cases h42 : k = KEY_LEFTSHIFT
      · subst h42
        rw [keyEdges_init_shift, keyEdges_end_shift,
          hmid_nil fun d hd => (digit_events_invariants d hd).1]
        rfl
      · by_cases h29 : k = KEY_LEFTCTRL
        · subst h29
          rw [keyEdges_init_ctrl, keyEdges_end_ctrl,
            hmid_nil fun d hd => (digit_events_invariants d hd).2.1]
          rfl
        · by_cases h22 : k = KEY_U
          · subst h22
            rw [keyEdges_init_u, keyEdges_end_u,
              hmid_nil fun d hd => (digit_events_invariants d hd).2.2.1]
            rfl
          · rw [keyEdges_init_other h42 h29 h22, keyEdges_end_other h42 h29]
            rw [List.nil_append, List.append_nil]
            refine alternates_flatten _ ?_
            intro l hl
            obtain ⟨d, hd, rfl⟩ := List.mem_map.mp hl
            show alternatesPR (keyEdges k (char_to_input_events d)) = true
            by_cases hk : k ∈ codesOf (char_to_input_events d)
            · exact (digit_events_invariants d (hds d hd)).2.2.2 k hk
            · rw [keyEdges_eq_nil_of_not_mem hk]; rfl

/-- C7: for every non-negative count, send_backspaces performs exactly
count separate device sends, each equal to the four-event group
backspace-press, marker, backspace-release, marker, and the first k
sends are exactly k such groups, so a failure after k completed sends
leaves exactly the first k groups delivered. -/
theorem C7_send_backspaces (count : Int) (h : 0 ≤ count) :
    ((send_backspaces_sends count).length : Int) = count
    ∧ (∀ g ∈ send_backspaces_sends count,
        g = [BACKSPACE_PRESS, SYN_REPORT, BACKSPACE_RELEASE, SYN_REPORT])
    ∧ (∀ k : Nat, (k : Int) ≤ count →
        (send_backspaces_sends count).take k =
          List.replicate k
            [BACKSPACE_PRESS, SYN_REPORT, BACKSPACE_RELEASE, SYN_REPORT]) := by
  refine ⟨?_, ?_, ?_⟩
  · simp [send_backspaces_sends, Int.toNat_of_nonneg h]
  · intro g hg
    exact List.eq_of_mem_replicate hg
  · intro k hk
    rw [send_backspaces_sends, List.take_replicate]
    congr 1
    omega

/-- Witness for C7 at count 3 (with prefix length 2). -/
theorem C7_send_backspaces_witness :
    ((send_backspaces_sends 3).length : Int) = 3
    ∧ (send_backspaces_sends 3).take 2 =
        List.replicate 2 [BACKSPACE_PRESS, SYN_REPORT, BACKSPACE_RELEASE, SYN_REPORT] := by
  have h := C7_send_backspaces 3 (by decide)
  exact ⟨h.1, h.2.2 2 (by decide)⟩

/-- C8 counterexample: called with the negative count -3, send_backspaces
does not raise: it returns normally having performed zero sends. -/
theorem C8_counterexample :
    send_backspaces_result (-3) = Except.ok [] := rfl

/-- C8 (amended): when send_backspaces is called with a negative count it
silently performs no sends and returns normally (the loop over
range(count) runs zero times); no error is raised. -/
theorem C8_negative_count_noop (count : Int) (h : count < 0) :
    send_backspaces_result count = Except.ok [] := by
  have hz : count.toNat = 0 := by omega
  simp [send_backspaces_result, send_backspaces_sends, hz]

/-- Witness for the amended C8 at count -7. -/
theorem C8_negative_count_noop_witness :
    send_backspaces_result (-7) = Except.ok [] :=
  C8_negative_count_noop (-7) (by decide)

/-- C9: the direct table deviates from the standard US keyboard layout:
the comma character maps to shift plus the equal key (US layout: the
unshifted comma key) and the plus character maps to shift plus the 0
key (US layout: shift plus the equal key), which also makes the plus
and right-parenthesis entries identical, breaking distinctness. -/
theorem C9_table_deviates_from_us_layout :
    LATIN_CHAR_TO_INPUT_EVENTS_DICT.lookup ','
        = some (shift_press_and_release KEY_EQUAL)
    ∧ LATIN_CHAR_TO_INPUT_EVENTS_DICT.lookup ','
        ≠ some (press_and_release KEY_COMMA)
    ∧ LATIN_CHAR_TO_INPUT_EVENTS_DICT.lookup '+'
        = some (shift_press_and_release KEY_0)
    ∧ LATIN_CHAR_TO_INPUT_EVENTS_DICT.lookup '+'
        ≠ some (shift_press_and_release KEY_EQUAL)
    ∧ LATIN_CHAR_TO_INPUT_EVENTS_DICT.lookup '+'
        = LATIN_CHAR_TO_INPUT_EVENTS_DICT.lookup ')' := by decide

/-- C10: the libevdev capture constructor unconditionally raises
NotImplementedError, so every successful construction of the
KeyboardCapture facade has bound the X11 fallback as its delegate. -/
theorem C10_capture_facade_binds_fallback {B : Type} (x11_kc : Except PyErr B)
    (r : BackendChoice × B)
    (h : (keyboard_capture_init x11_kc).result = Except.ok r) :
    r.1 = BackendChoice.fallback
    ∧ (keyboard_capture_libevdev_init : Except PyErr B)
        = Except.error PyErr.notImplementedError := by
  refine ⟨?_, rfl⟩
  cases x11_kc with
  | ok b =>
    have he : (keyboard_capture_init (Except.ok b)).result
        = Except.ok (BackendChoice.fallback, b) := rfl
    rw [he] at h
    injection h with h2
    rw [← h2]
  | error e =>
    have he : (keyboard_capture_init (B := B) (Except.error e)).result
        = Except.error e := rfl
    rw [he] at h
    simp at h

/-- Witness for C10 with an X11 capture constructor that succeeds. -/
theorem C10_capture_facade_binds_fallback_witness :
    (keyboard_capture_init (Except.ok (5 : Nat))).result
        = Except.ok (BackendChoice.fallback, 5)
    ∧ (BackendChoice.fallback, (5 : Nat)).1 = BackendChoice.fallback := by
  refine ⟨rfl, ?_⟩
  exact (C10_capture_facade_binds_fallback (Except.ok 5)
    (BackendChoice.fallback, 5) rfl).1
